import Mathlib

/-!
# Geometry and ordering of glyph matches (`fonts.go`, package `lookup`)

A shallow embedding of the comparison layer of the template OCR engine:
the match record `fontSymbolLookup`, the two geometric predicates `cross`
and `yCross`, the conflict comparator `biggerThan` and the reading-order
comparator `comesAfter`; and of the two collecting loops, `OCR.findAll` and
`loadFont`.

Modelling conventions.

* Go `int` values (pixel coordinates, glyph dimensions, areas, the size
  threshold) are mathematical integers. They are positions and extents
  inside an image held in memory, so the sums and differences formed by the
  code stay far inside the 64-bit range and no wrap-around takes place.
* The quality `g` is a Go `float64`. The code only subtracts two qualities
  and tests the sign of the difference; for finite floats the sign of the
  rounded difference is the sign of the exact one, so qualities are taken as
  exact rational numbers. (The specification keeps qualities in `[0,1]`, so
  no NaN or infinity occurs.)
* Go pointers to records are modelled by the records themselves, except in
  the slice built by `loadFont`, whose elements may be `nil` and are optional
  records.
* Functions of the repository defined outside `fonts.go` (`lookupAll`) and
  calls into the file system (`ioutil.ReadDir`, `loadSymbol`) are parameters
  of the functions that call them.
* `image.Point`, `image.Rectangle`, `image.Rect`, `Rectangle.Empty` and
  `Rectangle.Intersect` belong to the Go standard library; they are
  transcribed from its current definition, in which `Intersect` returns the
  zero rectangle as soon as the clamped rectangle is empty.
-/

namespace Lookup

/-! ## Standard library: `image` rectangles -/

/-- Go `image.Point`. -/
structure Point where
  X : Int
  Y : Int
  deriving DecidableEq, Repr

/-- Go `image.Rectangle`: the points with `Min.X ≤ x < Max.X`, `Min.Y ≤ y < Max.Y`. -/
structure Rectangle where
  Min : Point
  Max : Point
  deriving DecidableEq, Repr

/-- Go `image.ZR`, the zero value `image.Rectangle{}`. -/
def ZR : Rectangle := ⟨⟨0, 0⟩, ⟨0, 0⟩⟩

/-- Go `image.Rect`: builds a rectangle, swapping the coordinates of an axis
when they come in the wrong order. -/
def Rect (x0 y0 x1 y1 : Int) : Rectangle :=
  let xs : Int × Int := if x0 > x1 then (x1, x0) else (x0, x1)
  let ys : Int × Int := if y0 > y1 then (y1, y0) else (y0, y1)
  ⟨⟨xs.1, ys.1⟩, ⟨xs.2, ys.2⟩⟩

/-- Go `Rectangle.Empty`. -/
def Rectangle.Empty (r : Rectangle) : Bool :=
  decide (r.Min.X ≥ r.Max.X) || decide (r.Min.Y ≥ r.Max.Y)

/-- Go `Rectangle.Intersect`: clamps `r` to `s` coordinate by coordinate and
returns the zero rectangle when nothing is left. -/
def Rectangle.Intersect (r s : Rectangle) : Rectangle :=
  let minX := if r.Min.X < s.Min.X then s.Min.X else r.Min.X
  let minY := if r.Min.Y < s.Min.Y then s.Min.Y else r.Min.Y
  let maxX := if r.Max.X > s.Max.X then s.Max.X else r.Max.X
  let maxY := if r.Max.Y > s.Max.Y then s.Max.Y else r.Max.Y
  let r1 : Rectangle := ⟨⟨minX, minY⟩, ⟨maxX, maxY⟩⟩
  if r1.Empty then ZR else r1

/-! ## Data model -/

/-- Modelled from the spec: the type `ImageBinary` is declared outside the
given sources; a binarized template exposing its width, its height and its
cached area `Size`, the three fields `fonts.go` reads. -/
structure ImageBinary where
  Width : Int
  Height : Int
  Size : Int
  deriving DecidableEq, Repr

/-- The record `type fontSymbol struct`: a glyph template. -/
structure fontSymbol where
  Symbol : String
  image : ImageBinary
  Width : Int
  Height : Int
  deriving DecidableEq, Repr

/-- The record `type fontSymbolLookup struct`: one detected occurrence of a glyph. -/
structure fontSymbolLookup where
  fontSymbol : fontSymbol
  x : Int
  y : Int
  g : ℚ
  size : Int
  deriving DecidableEq

/-- Constructor `newFontSymbolLookup`: the area is copied from the template image. -/
def newFontSymbolLookup (fs : fontSymbol) (x y : Int) (g : ℚ) : fontSymbolLookup :=
  ⟨fs, x, y, g, fs.image.Size⟩

/-- Modelled from the spec: the integer helper `abs` is defined outside the
given sources; the specification reads the guard of the conflict rule as
`|area(a) - area(b)|`, the absolute value. -/
def abs (a : Int) : Int :=
  if a < 0 then -a else a

/-! ## Geometric predicates -/

/-- Method `fontSymbolLookup.cross`: the two glyph rectangles have a non-zero
intersection. -/
def cross (l f : fontSymbolLookup) : Bool :=
  let r := Rect l.x l.y (l.x + l.fontSymbol.Width) (l.y + l.fontSymbol.Height)
  let r2 := Rect f.x f.y (f.x + f.fontSymbol.Width) (f.y + f.fontSymbol.Height)
  decide (r.Intersect r2 ≠ ZR)

/-- Method `fontSymbolLookup.yCross`: the top or the bottom of `f` lies in the
vertical span of `l`. -/
def yCross (l f : fontSymbolLookup) : Bool :=
  let ly2 := l.y + l.fontSymbol.Height
  let fy2 := f.y + f.fontSymbol.Height
  (decide (f.y ≥ l.y) && decide (f.y ≤ ly2)) || (decide (fy2 ≥ l.y) && decide (fy2 ≤ ly2))

/-! ## Comparators -/

/-- Method `fontSymbolLookup.biggerThan`: area decides when the areas are at least
`maxSize2` apart, otherwise quality, then area. -/
def biggerThan (l other : fontSymbolLookup) (maxSize2 : Int) : Bool :=
  if abs (abs l.size - abs other.size) ≥ maxSize2 then
    decide (other.size < l.size)
  else
    -- better quality goes first
    let diff := l.g - other.g
    if diff ≠ 0 then
      decide (diff > 0)
    else
      -- bigger items goes first
      decide (other.size < l.size)

/-- Method `fontSymbolLookup.comesAfter`: a cascade over the differences of `y`
(only when the row-overlap test fails), of `x`, and of `y` again. -/
def comesAfter (l f : fontSymbolLookup) : Bool :=
  let r : Int := 0
  let r : Int := if !(yCross l f) then l.y - f.y else r
  let r : Int := if r == 0 then l.x - f.x else r
  let r : Int := if r == 0 then l.y - f.y else r
  decide (r < 0)

/-! ## The match search driver and the font loader -/

/-- Modelled from the spec: the hit record returned by the correlation primitive
is declared outside the given sources; a position `(X, Y)` with a quality `G`,
the three fields `findAll` reads. -/
structure GPoint where
  X : Int
  Y : Int
  G : ℚ
  deriving DecidableEq

/-- Modelled from the spec: the type `OCR` is declared outside the given
sources; of its fields `findAll` reads the threshold only. -/
structure OCR where
  threshold : ℚ
  deriving DecidableEq

/-- The wrapping loop of `findAll`, `for _, p := range pp`: every hit is
appended to `found` as a match of the symbol `fs`. -/
def findAll.wrap (fs : fontSymbol) (pp : List GPoint)
    (found : List fontSymbolLookup) : List fontSymbolLookup :=
  pp.foldl (fun acc p => acc ++ [newFontSymbolLookup fs p.X p.Y p.G]) found

/-- The symbol loop of `findAll`, `for _, fs := range symbols`, with the matches
collected so far. A Go result `(slice, error)` is a pair whose second component
is `none` for a `nil` error; a `nil` slice is the empty list. -/
def findAll.loop {ε : Type}
    (lookupAll : ImageBinary → ImageBinary → ℚ → List GPoint × Option ε)
    (o : OCR) (bi : ImageBinary) :
    List fontSymbol → List fontSymbolLookup → List fontSymbolLookup × Option ε
  | [], found => (found, none)
  | fs :: rest, found =>
    match lookupAll bi fs.image o.threshold with
    | (_, some err) => ([], some err)
    | (pp, none) => findAll.loop lookupAll o bi rest (findAll.wrap fs pp found)

/-- Method `OCR.findAll`. The correlation primitive `lookupAll` is defined
outside the given sources and is a parameter. The region `x1, y1, x2, y2` is
received and not used, as in the source. -/
def findAll {ε : Type}
    (lookupAll : ImageBinary → ImageBinary → ℚ → List GPoint × Option ε)
    (o : OCR) (symbols : List fontSymbol) (bi : ImageBinary)
    (_x1 _y1 _x2 _y2 : Int) : List fontSymbolLookup × Option ε :=
  findAll.loop lookupAll o bi symbols []

/-- Go `os.FileInfo`, reduced to the two methods `loadFont` calls. -/
structure FileInfo where
  Name : String
  IsDir : Bool
  deriving DecidableEq

/-- Go `strings.HasPrefix`: `s` begins with `p`. -/
def HasPrefix (s p : String) : Bool :=
  p.data.isPrefixOf s.data

/-- The loop of `loadFont`, `for i, f := range files`, over the indexed listing:
directories and dot files are skipped with `continue`, every other entry is
loaded and stored at its own index `i` of `fonts`. -/
def loadFont.loop {ε : Type} (loadSymbol : String → String → Except ε fontSymbol)
    (path : String) :
    List (Nat × FileInfo) → List (Option fontSymbol) → List (Option fontSymbol) × Option ε
  | [], fonts => (fonts, none)
  | (i, f) :: rest, fonts =>
    if f.IsDir || HasPrefix f.Name "." then
      loadFont.loop loadSymbol path rest fonts
    else
      match loadSymbol path f.Name with
      | .error err => ([], some err)
      | .ok fs => loadFont.loop loadSymbol path rest (fonts.set i (some fs))

/-- Function `loadFont`. The directory listing `ioutil.ReadDir` and the decoding
of one glyph file (`loadSymbol`, which reads the file system) are parameters.
The slice `fonts` is a list of optional symbols, `none` for a `nil` pointer; it
is created by `make` with one `nil` per directory entry. -/
def loadFont {ε : Type} (ReadDir : String → Except ε (List FileInfo))
    (loadSymbol : String → String → Except ε fontSymbol) (path : String) :
    List (Option fontSymbol) × Option ε :=
  match ReadDir path with
  | .error err => ([], some err)
  | .ok files => loadFont.loop loadSymbol path files.enum (List.replicate files.length none)

/-! ## Fixtures for the scenarios of the specification -/

/-- A glyph template of the given dimensions; its image caches `w * h` as area. -/
def glyph (name : String) (w h : Int) : fontSymbol :=
  ⟨name, ⟨w, h, w * h⟩, w, h⟩

/-- Scenario A, match "A": area 100, quality 0.9, at (10,10). -/
def scenA_A : fontSymbolLookup := newFontSymbolLookup (glyph "A" 10 10) 10 10 (9 / 10)

/-- Scenario A, match "B": area 95, quality 0.95, at (12,11). -/
def scenA_B : fontSymbolLookup := newFontSymbolLookup (glyph "B" 19 5) 12 11 (19 / 20)

/-- Scenario B, match "A": area 200, quality 0.9, at (10,10). -/
def scenB_A : fontSymbolLookup := newFontSymbolLookup (glyph "A" 10 20) 10 10 (9 / 10)

/-- Scenario B, match "B": area 50, quality 0.95, at (11,11). -/
def scenB_B : fontSymbolLookup := newFontSymbolLookup (glyph "B" 5 10) 11 11 (19 / 20)

/-- Scenario C, match "X" at (0,0), row height 20. -/
def scenC_X : fontSymbolLookup := newFontSymbolLookup (glyph "X" 10 20) 0 0 (9 / 10)

/-- Scenario C, match "Y" at (0,50), row height 20. -/
def scenC_Y : fontSymbolLookup := newFontSymbolLookup (glyph "Y" 10 20) 0 50 (9 / 10)

/-- Scenario D, match "L" at (5,0). -/
def scenD_L : fontSymbolLookup := newFontSymbolLookup (glyph "L" 10 20) 5 0 (9 / 10)

/-- Scenario D, match "R" at (40,0). -/
def scenD_R : fontSymbolLookup := newFontSymbolLookup (glyph "R" 10 20) 40 0 (9 / 10)

/-- Three matches of areas 100, 130, 160 and qualities 0.9, 0.8, 0.7: neighbours
are within a threshold of 50, the outer two are not. -/
def chain_a : fontSymbolLookup := newFontSymbolLookup (glyph "a" 10 10) 0 0 (9 / 10)

/-- Second match of the chain: area 130, quality 0.8. -/
def chain_b : fontSymbolLookup := newFontSymbolLookup (glyph "b" 10 13) 0 0 (8 / 10)

/-- Third match of the chain: area 160, quality 0.7. -/
def chain_c : fontSymbolLookup := newFontSymbolLookup (glyph "c" 10 16) 0 0 (7 / 10)

/-- A staircase of three equal glyphs (10 by 10) stepping up to the right:
lowest and leftmost at (0,16). -/
def stair_a : fontSymbolLookup := newFontSymbolLookup (glyph "a" 10 10) 0 16 (9 / 10)

/-- Middle step of the staircase, at (100,8). -/
def stair_b : fontSymbolLookup := newFontSymbolLookup (glyph "b" 10 10) 100 8 (9 / 10)

/-- Highest and rightmost step of the staircase, at (200,0). -/
def stair_c : fontSymbolLookup := newFontSymbolLookup (glyph "c" 10 10) 200 0 (9 / 10)

/-- A tall glyph (10 by 30) at (100,0), to the right of `short`. -/
def tall : fontSymbolLookup := newFontSymbolLookup (glyph "l" 10 30) 100 0 (9 / 10)

/-- A short glyph (10 by 10) at (0,10); its vertical span lies strictly inside
that of `tall`. -/
def short : fontSymbolLookup := newFontSymbolLookup (glyph "-" 10 10) 0 10 (9 / 10)

/-- A glyph "o" (10 by 10) detected at (10,10) with quality 0.9. -/
def tie_a : fontSymbolLookup := newFontSymbolLookup (glyph "o" 10 10) 10 10 (9 / 10)

/-- The same glyph "o" detected one pixel to the right with the same quality. -/
def tie_b : fontSymbolLookup := newFontSymbolLookup (glyph "o" 10 10) 11 10 (9 / 10)

/-- A glyph of height 10 at y = 0. -/
def part_l : fontSymbolLookup := newFontSymbolLookup (glyph "p" 10 10) 0 0 (9 / 10)

/-- A glyph of height 10 at y = 5: its span [5,15] overlaps [0,10] without
either span containing the other. -/
def part_f : fontSymbolLookup := newFontSymbolLookup (glyph "q" 10 10) 30 5 (9 / 10)

/-- A glyph occupying [0,10) x [0,10). -/
def touch_l : fontSymbolLookup := newFontSymbolLookup (glyph "t" 10 10) 0 0 (9 / 10)

/-- A glyph occupying [10,20) x [0,10): it shares only the edge x = 10 with `touch_l`. -/
def touch_r : fontSymbolLookup := newFontSymbolLookup (glyph "u" 10 10) 10 0 (9 / 10)

/-- A small glyph (4 by 4) at (103,12), inside the rectangle of `tall`. -/
def inner : fontSymbolLookup := newFontSymbolLookup (glyph "." 4 4) 103 12 (9 / 10)

/-- A correlation primitive for two templates: the 10 pixel wide one is found
twice, any other one once. -/
def hitsOK (_bi tpl : ImageBinary) (_m : ℚ) : List GPoint × Option String :=
  if tpl.Width = 10 then ([⟨1, 2, 9 / 10⟩, ⟨30, 2, 8 / 10⟩], none)
  else ([⟨15, 2, 19 / 20⟩], none)

/-- A correlation primitive that fails on every template that is not 10 pixels
wide. -/
def hitsFail (_bi tpl : ImageBinary) (_m : ℚ) : List GPoint × Option String :=
  if tpl.Width = 10 then ([⟨1, 2, 9 / 10⟩, ⟨30, 2, 8 / 10⟩], none)
  else ([], some "malformed region")

/-- A target image of 100 by 40 pixels. -/
def page : ImageBinary := ⟨100, 40, 4000⟩

/-- A font directory holding a dot file next to two glyph files. -/
def fontDir (_path : String) : Except String (List FileInfo) :=
  .ok [⟨".DS_Store", false⟩, ⟨"0.png", false⟩, ⟨"1.png", false⟩]

/-- A glyph loader that succeeds on every file with a 10 by 10 template. -/
def loadOK (_path fileName : String) : Except String fontSymbol :=
  .ok (glyph fileName 10 10)

/-! ## Auxiliary facts -/

theorem abs_eq_abs (a : Int) : abs a = |a| := by
  unfold abs
  split
  · rename_i h; rw [abs_of_neg h]
  · rename_i h; rw [abs_of_nonneg (not_lt.mp h)]

theorem abs_gap_of_nonneg {p q : Int} (hp : 0 ≤ p) (hq : 0 ≤ q) :
    abs (abs p - abs q) = |p - q| := by
  rw [abs_eq_abs, abs_eq_abs, abs_eq_abs, abs_of_nonneg hp, abs_of_nonneg hq]

/-- Both rules of `biggerThan` at once, for non-negative sizes. -/
theorem biggerThan_iff (maxSize2 : Int) (a b : fontSymbolLookup)
    (ha : 0 ≤ a.size) (hb : 0 ≤ b.size) :
    biggerThan a b maxSize2 = true ↔
      (|a.size - b.size| ≥ maxSize2 ∧ b.size < a.size) ∨
      (|a.size - b.size| < maxSize2 ∧ (b.g < a.g ∨ (a.g = b.g ∧ b.size < a.size))) := by
  unfold biggerThan
  rw [abs_gap_of_nonneg ha hb]
  by_cases hgap : |a.size - b.size| ≥ maxSize2
  · rw [if_pos hgap]
    simp [hgap, not_lt.mpr hgap]
  · rw [if_neg hgap]
    have hlt := not_le.mp hgap
    by_cases hg : a.g - b.g = 0
    · have hq : a.g = b.g := sub_eq_zero.mp hg
      simp [hq, hlt, hgap]
    · have hq : a.g ≠ b.g := fun h => hg (sub_eq_zero.mpr h)
      simp [hg, hq, hlt, hgap]

/-- The row-overlap test in arithmetic form. -/
theorem yCross_iff (l f : fontSymbolLookup) :
    yCross l f = true ↔
      (l.y ≤ f.y ∧ f.y ≤ l.y + l.fontSymbol.Height) ∨
      (l.y ≤ f.y + f.fontSymbol.Height ∧
        f.y + f.fontSymbol.Height ≤ l.y + l.fontSymbol.Height) := by
  simp [yCross]

/-- The cascade of `comesAfter` resolved: by `(y, x)` when the row-overlap test
fails, by `(x, y)` when it passes. -/
theorem comesAfter_iff (l f : fontSymbolLookup) :
    comesAfter l f = true ↔
      (¬ yCross l f = true ∧ (l.y < f.y ∨ (l.y = f.y ∧ l.x < f.x))) ∨
      (yCross l f = true ∧ (l.x < f.x ∨ (l.x = f.x ∧ l.y < f.y))) := by
  unfold comesAfter
  cases h : yCross l f
  · by_cases hy : l.y - f.y = 0
    · by_cases hx : l.x - f.x = 0
      · simp [hy, hx]; omega
      · simp [hy, hx]; omega
    · simp [hy]; omega
  · by_cases hx : l.x - f.x = 0
    · simp [hx]; omega
    · simp [hx]; omega

/-- The method `Intersect` returns something else than the zero rectangle exactly when the
clamped rectangle is not empty. -/
theorem Intersect_ne_ZR_iff (r s : Rectangle) :
    r.Intersect s ≠ ZR ↔
      max r.Min.X s.Min.X < min r.Max.X s.Max.X ∧ max r.Min.Y s.Min.Y < min r.Max.Y s.Max.Y := by
  obtain ⟨⟨a, b⟩, ⟨c, d⟩⟩ := r
  obtain ⟨⟨a2, b2⟩, ⟨c2, d2⟩⟩ := s
  simp only [Rectangle.Intersect, Rectangle.Empty, ZR, ne_eq, lt_min_iff, max_lt_iff]
  split_ifs <;>
    simp only [Bool.or_eq_true, decide_eq_true_eq, Rectangle.mk.injEq, Point.mk.injEq,
      not_true_eq_false, false_iff, not_or, not_and] at * <;>
    omega

/-- With non-negative dimensions `Rect` keeps the corners as given, and `cross`
is the emptiness test of the clamped rectangle. -/
theorem cross_iff (l f : fontSymbolLookup)
    (hlw : 0 ≤ l.fontSymbol.Width) (hlh : 0 ≤ l.fontSymbol.Height)
    (hfw : 0 ≤ f.fontSymbol.Width) (hfh : 0 ≤ f.fontSymbol.Height) :
    cross l f = true ↔
      max l.x f.x < min (l.x + l.fontSymbol.Width) (f.x + f.fontSymbol.Width) ∧
      max l.y f.y < min (l.y + l.fontSymbol.Height) (f.y + f.fontSymbol.Height) := by
  have h1 : ¬ l.x > l.x + l.fontSymbol.Width := by omega
  have h2 : ¬ l.y > l.y + l.fontSymbol.Height := by omega
  have h3 : ¬ f.x > f.x + f.fontSymbol.Width := by omega
  have h4 : ¬ f.y > f.y + f.fontSymbol.Height := by omega
  simp only [cross, decide_eq_true_eq, Intersect_ne_ZR_iff, Rect, if_neg h1, if_neg h2,
    if_neg h3, if_neg h4]

theorem mem3_fst {α : Type} (a b c : α) : a ∈ [a, b, c] := List.mem_cons_self _ _

theorem mem3_snd {α : Type} (a b c : α) : b ∈ [a, b, c] :=
  List.mem_cons_of_mem _ (List.mem_cons_self _ _)

theorem mem3_thd {α : Type} (a b c : α) : c ∈ [a, b, c] :=
  List.mem_cons_of_mem _ (List.mem_cons_of_mem _ (List.mem_cons_self _ _))

/-! ## The conflict comparator -/

/-- C1. Area-gap dominance: for non-negative sizes whose difference is at
least the threshold in absolute value, `a.biggerThan(b, maxSize2)` is true
exactly when `a.size > b.size`, whatever the two qualities are. -/
theorem biggerThan_area_gap (maxSize2 : Int) (a b : fontSymbolLookup)
    (ha : 0 ≤ a.size) (hb : 0 ≤ b.size) (hgap : |a.size - b.size| ≥ maxSize2) :
    biggerThan a b maxSize2 = true ↔ a.size > b.size := by
  unfold biggerThan
  rw [abs_gap_of_nonneg ha hb, if_pos hgap]
  simp

/-- Scenario B instantiates C1 in both directions: the gap 150 is at least
the threshold 50, so "A" (area 200, quality 0.9) beats "B" (area 50,
quality 0.95) and "B" does not beat "A". -/
theorem biggerThan_area_gap_witness :
    (0 ≤ scenB_A.size ∧ 0 ≤ scenB_B.size ∧ |scenB_A.size - scenB_B.size| ≥ 50) ∧
    (biggerThan scenB_A scenB_B 50 = true ↔ scenB_A.size > scenB_B.size) ∧
    biggerThan scenB_A scenB_B 50 = true ∧ biggerThan scenB_B scenB_A 50 = false :=
  ⟨⟨by decide, by decide, by decide⟩,
   biggerThan_area_gap 50 scenB_A scenB_B (by decide) (by decide) (by decide),
   (biggerThan_area_gap 50 scenB_A scenB_B (by decide) (by decide) (by decide)).mpr (by decide),
   Bool.eq_false_iff.mpr (fun h =>
     absurd ((biggerThan_area_gap 50 scenB_B scenB_A (by decide) (by decide) (by decide)).mp h)
       (by decide))⟩

/-- C2. Close-area rule: for non-negative sizes whose difference is below the
threshold in absolute value, `a.biggerThan(b, maxSize2)` is true exactly when
`a.g > b.g`, or `a.g = b.g` and `a.size > b.size`. -/
theorem biggerThan_close_area (maxSize2 : Int) (a b : fontSymbolLookup)
    (ha : 0 ≤ a.size) (hb : 0 ≤ b.size) (hclose : |a.size - b.size| < maxSize2) :
    biggerThan a b maxSize2 = true ↔ (a.g > b.g ∨ (a.g = b.g ∧ a.size > b.size)) := by
  unfold biggerThan
  rw [abs_gap_of_nonneg ha hb, if_neg (not_le.mpr hclose)]
  by_cases hg : a.g - b.g = 0
  · have hq : a.g = b.g := sub_eq_zero.mp hg
    simp [hq]
  · have hq : a.g ≠ b.g := fun h => hg (sub_eq_zero.mpr h)
    simp [hg, hq]

/-- Scenario A instantiates C2 in both directions: the gap 5 is below the
threshold 50, so "B" (quality 0.95) beats "A" (quality 0.9) and "A" does not
beat "B". -/
theorem biggerThan_close_area_witness :
    (0 ≤ scenA_B.size ∧ 0 ≤ scenA_A.size ∧ |scenA_B.size - scenA_A.size| < 50) ∧
    (biggerThan scenA_B scenA_A 50 = true ↔
      (scenA_B.g > scenA_A.g ∨ (scenA_B.g = scenA_A.g ∧ scenA_B.size > scenA_A.size))) ∧
    biggerThan scenA_B scenA_A 50 = true ∧ biggerThan scenA_A scenA_B 50 = false :=
  ⟨⟨by decide, by decide, by decide⟩,
   biggerThan_close_area 50 scenA_B scenA_A (by decide) (by decide) (by decide),
   (biggerThan_close_area 50 scenA_B scenA_A (by decide) (by decide) (by decide)).mpr
     (Or.inl (by norm_num [scenA_A, scenA_B, newFontSymbolLookup])),
   Bool.eq_false_iff.mpr (fun h =>
     absurd ((biggerThan_close_area 50 scenA_A scenA_B (by decide) (by decide) (by decide)).mp h)
       (by norm_num [scenA_A, scenA_B, newFontSymbolLookup, glyph]))⟩

/-- C5, refuted as stated. With threshold 50, areas 100, 130, 160 and
qualities 0.9, 0.8, 0.7: the first beats the second and the second beats the
third on quality (gaps of 30), but the first does not beat the third, whose
area is 60 larger; the third even beats the first, closing a cycle. -/
theorem biggerThan_not_transitive :
    (0 < chain_a.size ∧ 0 < chain_b.size ∧ 0 < chain_c.size) ∧
    biggerThan chain_a chain_b 50 = true ∧ biggerThan chain_b chain_c 50 = true ∧
    biggerThan chain_a chain_c 50 = false ∧ biggerThan chain_c chain_a 50 = true :=
  ⟨⟨by decide, by decide, by decide⟩,
   by norm_num [biggerThan, chain_a, chain_b, newFontSymbolLookup, glyph, abs],
   by norm_num [biggerThan, chain_b, chain_c, newFontSymbolLookup, glyph, abs],
   by norm_num [biggerThan, chain_a, chain_c, newFontSymbolLookup, glyph, abs],
   by norm_num [biggerThan, chain_a, chain_c, newFontSymbolLookup, glyph, abs]⟩

/-- C5, amended. For positive sizes, `biggerThan` is transitive whenever the
pair `(a, c)` is settled by a rule that also settled the pairs before it: if the
areas of `a` and `c` are within the threshold then so are those of `a, b` and of
`b, c`, and if they are at least the threshold apart then so are those of `a, b`
or of `b, c`. -/
theorem biggerThan_trans_same_rule (maxSize2 : Int) (a b c : fontSymbolLookup)
    (ha : 0 < a.size) (hb : 0 < b.size) (hc : 0 < c.size)
    (hclose : |a.size - c.size| < maxSize2 →
      |a.size - b.size| < maxSize2 ∧ |b.size - c.size| < maxSize2)
    (hgap : |a.size - c.size| ≥ maxSize2 →
      |a.size - b.size| ≥ maxSize2 ∨ |b.size - c.size| ≥ maxSize2)
    (hab : biggerThan a b maxSize2 = true) (hbc : biggerThan b c maxSize2 = true) :
    biggerThan a c maxSize2 = true := by
  rw [biggerThan_iff maxSize2 a b ha.le hb.le] at hab
  rw [biggerThan_iff maxSize2 b c hb.le hc.le] at hbc
  rw [biggerThan_iff maxSize2 a c ha.le hc.le]
  have e1 := abs_cases (a.size - b.size)
  have e2 := abs_cases (b.size - c.size)
  have e3 := abs_cases (a.size - c.size)
  by_cases hac : |a.size - c.size| ≥ maxSize2
  · have hone := hgap hac
    refine Or.inl ⟨hac, ?_⟩
    rcases hab with ⟨h1, h2⟩ | ⟨h1, _⟩ <;> rcases hbc with ⟨h3, h4⟩ | ⟨h3, _⟩ <;> omega
  · have hlt := not_le.mp hac
    obtain ⟨c1, c2⟩ := hclose hlt
    refine Or.inr ⟨hlt, ?_⟩
    rcases hab with ⟨h1, _⟩ | ⟨_, h2⟩
    · omega
    rcases hbc with ⟨h3, _⟩ | ⟨_, h4⟩
    · omega
    rcases h2 with h2 | ⟨h2, h2s⟩ <;> rcases h4 with h4 | ⟨h4, h4s⟩
    · exact Or.inl (lt_trans h4 h2)
    · exact Or.inl (h4 ▸ h2)
    · exact Or.inl (h2 ▸ h4)
    · exact Or.inr ⟨h2.trans h4, by omega⟩

/-- The amended C5 at areas 200, 95, 100 and threshold 50: the first beats the
second by area, the second beats the third by quality, and the first and the
third are again an area-gap pair. -/
theorem biggerThan_trans_same_rule_witness :
    (0 < scenB_A.size ∧ 0 < scenA_B.size ∧ 0 < scenA_A.size) ∧
    biggerThan scenB_A scenA_B 50 = true ∧ biggerThan scenA_B scenA_A 50 = true ∧
    biggerThan scenB_A scenA_A 50 = true :=
  ⟨⟨by decide, by decide, by decide⟩,
   by norm_num [biggerThan, scenB_A, scenA_B, newFontSymbolLookup, glyph, abs],
   by norm_num [biggerThan, scenA_A, scenA_B, newFontSymbolLookup, glyph, abs],
   biggerThan_trans_same_rule 50 scenB_A scenA_B scenA_A (by decide) (by decide) (by decide)
     (by decide) (by decide)
     (by norm_num [biggerThan, scenB_A, scenA_B, newFontSymbolLookup, glyph, abs])
     (by norm_num [biggerThan, scenA_A, scenA_B, newFontSymbolLookup, glyph, abs])⟩

/-! ## The reading-order comparator -/

/-- With a non-negative height of the receiver, two matches that fail the
row-overlap test start at different heights. -/
theorem y_ne_of_not_yCross (l f : fontSymbolLookup) (hl : 0 ≤ l.fontSymbol.Height)
    (h : yCross l f = false) : l.y ≠ f.y := by
  intro he
  simp only [yCross, Bool.or_eq_false_iff, Bool.and_eq_false_iff, decide_eq_false_iff_not] at h
  omega

/-- C3. Different-row ordering: for non-negative heights, when `l.yCross(f)` is
false, `l.comesAfter(f)` is true exactly when `l.y < f.y`; `x` plays no part. -/
theorem comesAfter_different_row (l f : fontSymbolLookup)
    (hl : 0 ≤ l.fontSymbol.Height) (_hf : 0 ≤ f.fontSymbol.Height)
    (hrow : yCross l f = false) :
    comesAfter l f = true ↔ l.y < f.y := by
  have hne : l.y - f.y ≠ 0 := fun h => y_ne_of_not_yCross l f hl hrow (by omega)
  simp only [comesAfter, hrow, Bool.not_false, if_true, beq_iff_eq, if_neg hne,
    decide_eq_true_eq]
  omega

/-- Scenario C instantiates C3 in both directions: "X" at (0,0) and "Y" at
(0,50), both of height 20, are on different rows; "X" sorts first. -/
theorem comesAfter_different_row_witness :
    (0 ≤ scenC_X.fontSymbol.Height ∧ 0 ≤ scenC_Y.fontSymbol.Height ∧
      yCross scenC_X scenC_Y = false ∧ yCross scenC_Y scenC_X = false) ∧
    (comesAfter scenC_X scenC_Y = true ↔ scenC_X.y < scenC_Y.y) ∧
    comesAfter scenC_X scenC_Y = true ∧ comesAfter scenC_Y scenC_X = false :=
  ⟨⟨by decide, by decide, by decide, by decide⟩,
   comesAfter_different_row scenC_X scenC_Y (by decide) (by decide) (by decide),
   (comesAfter_different_row scenC_X scenC_Y (by decide) (by decide) (by decide)).mpr (by decide),
   Bool.eq_false_iff.mpr (fun h =>
     absurd ((comesAfter_different_row scenC_Y scenC_X (by decide) (by decide) (by decide)).mp h)
       (by decide))⟩

/-- C4. Same-row ordering: when `l.yCross(f)` is true, `l.comesAfter(f)` is true
exactly when `l.x < f.x`, or `l.x = f.x` and `l.y < f.y`. -/
theorem comesAfter_same_row (l f : fontSymbolLookup) (hrow : yCross l f = true) :
    comesAfter l f = true ↔ (l.x < f.x ∨ (l.x = f.x ∧ l.y < f.y)) := by
  simp only [comesAfter, hrow, Bool.not_true, Bool.false_eq_true, if_false, beq_self_eq_true,
    if_true, beq_iff_eq, decide_eq_true_eq]
  split <;> omega

/-- Scenario D instantiates C4 in both directions: "L" at (5,0) and "R" at
(40,0) are on the same row; "L" sorts first. -/
theorem comesAfter_same_row_witness :
    (yCross scenD_L scenD_R = true ∧ yCross scenD_R scenD_L = true) ∧
    (comesAfter scenD_L scenD_R = true ↔
      (scenD_L.x < scenD_R.x ∨ (scenD_L.x = scenD_R.x ∧ scenD_L.y < scenD_R.y))) ∧
    comesAfter scenD_L scenD_R = true ∧ comesAfter scenD_R scenD_L = false :=
  ⟨⟨by decide, by decide⟩,
   comesAfter_same_row scenD_L scenD_R (by decide),
   (comesAfter_same_row scenD_L scenD_R (by decide)).mpr (Or.inl (by decide)),
   Bool.eq_false_iff.mpr (fun h =>
     absurd ((comesAfter_same_row scenD_R scenD_L (by decide)).mp h) (by decide))⟩

/-- C6, refuted as stated. Three equal glyphs on a staircase, pairwise disjoint:
`stair_a` and `stair_b` overlap vertically and so do `stair_b` and `stair_c`,
which orders each pair by `x`; `stair_a` and `stair_c` do not, which orders them
by `y`, the other way round. -/
theorem comesAfter_not_transitive :
    (0 < stair_a.fontSymbol.Width ∧ 0 < stair_a.fontSymbol.Height ∧
      0 < stair_b.fontSymbol.Width ∧ 0 < stair_b.fontSymbol.Height ∧
      0 < stair_c.fontSymbol.Width ∧ 0 < stair_c.fontSymbol.Height) ∧
    (cross stair_a stair_b = false ∧ cross stair_b stair_c = false ∧
      cross stair_a stair_c = false) ∧
    comesAfter stair_a stair_b = true ∧ comesAfter stair_b stair_c = true ∧
    comesAfter stair_a stair_c = false ∧ comesAfter stair_c stair_a = true := by
  decide

/-- C6, amended. On three matches with positive widths and heights, no two of
which cross, and on which the row-overlap test is symmetric and transitive (it
sorts the three into rows), `a.comesAfter(b)` and `b.comesAfter(c)` imply
`a.comesAfter(c)`. -/
theorem comesAfter_trans_rows (a b c : fontSymbolLookup)
    (ha : 0 < a.fontSymbol.Width ∧ 0 < a.fontSymbol.Height)
    (hb : 0 < b.fontSymbol.Width ∧ 0 < b.fontSymbol.Height)
    (hc : 0 < c.fontSymbol.Width ∧ 0 < c.fontSymbol.Height)
    (_hfree : cross a b = false ∧ cross b c = false ∧ cross a c = false)
    (hsym : ∀ p ∈ [a, b, c], ∀ q ∈ [a, b, c], yCross p q = yCross q p)
    (htr : ∀ p ∈ [a, b, c], ∀ q ∈ [a, b, c], ∀ r ∈ [a, b, c],
      yCross p q = true → yCross q r = true → yCross p r = true)
    (hab : comesAfter a b = true) (hbc : comesAfter b c = true) :
    comesAfter a c = true := by
  have ma := mem3_fst a b c
  have mb := mem3_snd a b c
  have mc := mem3_thd a b c
  have s1 := Bool.eq_iff_iff.mp (hsym a ma b mb)
  have s2 := Bool.eq_iff_iff.mp (hsym a ma c mc)
  have s3 := Bool.eq_iff_iff.mp (hsym b mb c mc)
  have t1 := htr a ma b mb c mc
  have t2 := htr b mb a ma c mc
  have t3 := htr a ma c mc b mb
  obtain ⟨_, hha⟩ := ha
  obtain ⟨_, hhb⟩ := hb
  obtain ⟨_, hhc⟩ := hc
  rw [comesAfter_iff] at hab hbc ⊢
  by_cases hAB : yCross a b = true <;> by_cases hBC : yCross b c = true <;>
    by_cases hAC : yCross a c = true <;>
    simp only [hAB, hBC, hAC, Bool.false_eq_true, not_true_eq_false, not_false_eq_true,
      true_and, false_and, or_false, false_or] at hab hbc ⊢
  · omega
  · exact absurd (t1 hAB hBC) hAC
  · exact absurd (t2 (s1.mp hAB) hAC) hBC
  · rw [yCross_iff] at hAB hBC
    omega
  · exact absurd (t3 hAC (s3.mp hBC)) hAB
  · have hCA : ¬ yCross c a = true := fun h => hAC (s2.mpr h)
    rw [yCross_iff] at hAB hBC hAC hCA
    omega
  · rw [yCross_iff] at hAB hBC hAC
    omega
  · omega

/-- The amended C6 on "L" (5,0), "R" (40,0) and "Y" (0,50): the first two share
a row, the third lies on a lower one. -/
theorem comesAfter_trans_rows_witness :
    (cross scenD_L scenD_R = false ∧ cross scenD_R scenC_Y = false ∧
      cross scenD_L scenC_Y = false) ∧
    comesAfter scenD_L scenD_R = true ∧ comesAfter scenD_R scenC_Y = true ∧
    comesAfter scenD_L scenC_Y = true :=
  ⟨by decide, by decide, by decide,
   comesAfter_trans_rows scenD_L scenD_R scenC_Y (by decide) (by decide) (by decide)
     (by decide) (by decide) (by decide) (by decide) (by decide)⟩

/-- Two non-crossing matches with positive dimensions on which `yCross` answers
the same in both directions are ordered one way and one way only: an unordered
pair needs `yCross` to disagree with itself. -/
theorem comesAfter_total_of_symmetric_yCross (a b : fontSymbolLookup)
    (ha : 0 < a.fontSymbol.Width ∧ 0 < a.fontSymbol.Height)
    (hb : 0 < b.fontSymbol.Width ∧ 0 < b.fontSymbol.Height)
    (hfree : cross a b = false) (hsym : yCross a b = yCross b a) :
    (comesAfter a b = true ∧ comesAfter b a = false) ∨
    (comesAfter a b = false ∧ comesAfter b a = true) := by
  obtain ⟨haw, hah⟩ := ha
  obtain ⟨hbw, hbh⟩ := hb
  rw [Bool.eq_false_iff, ne_eq, cross_iff a b haw.le hah.le hbw.le hbh.le, lt_min_iff,
    lt_min_iff, max_lt_iff, max_lt_iff] at hfree
  have hs := Bool.eq_iff_iff.mp hsym
  simp only [Bool.eq_false_iff, ne_eq, comesAfter_iff]
  by_cases hAB : yCross a b = true
  · have hBA := hs.mp hAB
    simp only [hAB, hBA, not_true_eq_false, true_and, false_and, false_or]
    omega
  · have hBA : ¬ yCross b a = true := fun h => hAB (hs.mpr h)
    simp only [hAB, hBA, Bool.false_eq_true, not_false_eq_true, true_and, false_and,
      or_false]
    omega

/-- C7, the code at the failing input. A tall glyph at (100,0), 10 by 30, and a
short one at (0,10), 10 by 10, do not cross. `tall.yCross(short)` is true, so
`tall.comesAfter(short)` compares `x` and is false; `short.yCross(tall)` is
false, because neither end of the tall span lies in the short one, so
`short.comesAfter(tall)` compares `y` and is false as well: the pair is left
unordered. -/
theorem comesAfter_leaves_pair_unordered :
    (0 < tall.fontSymbol.Width ∧ 0 < tall.fontSymbol.Height ∧
      0 < short.fontSymbol.Width ∧ 0 < short.fontSymbol.Height) ∧
    cross tall short = false ∧
    yCross tall short = true ∧ yCross short tall = false ∧
    comesAfter tall short = false ∧ comesAfter short tall = false := by
  decide

/-! ## Single winner of a conflict -/

/-- C8, refuted as stated. The same 10 by 10 glyph detected at (10,10) and at
(11,10) with the same quality: two distinct, crossing matches of positive size,
neither of which is bigger than the other. -/
theorem biggerThan_no_winner_on_tie :
    tie_a ≠ tie_b ∧ (0 < tie_a.size ∧ 0 < tie_b.size) ∧ cross tie_a tie_b = true ∧
    biggerThan tie_a tie_b 50 = false ∧ biggerThan tie_b tie_a 50 = false :=
  ⟨by simp [tie_a, tie_b, newFontSymbolLookup], ⟨by decide, by decide⟩, by decide,
   by norm_num [biggerThan, tie_a, tie_b, newFontSymbolLookup, glyph, abs],
   by norm_num [biggerThan, tie_a, tie_b, newFontSymbolLookup, glyph, abs]⟩

/-- C8, amended. For two crossing matches of positive size that differ in size,
or differ in quality while the threshold is positive, exactly one of
`a.biggerThan(b, maxSize2)` and `b.biggerThan(a, maxSize2)` is true. -/
theorem biggerThan_single_winner (maxSize2 : Int) (a b : fontSymbolLookup)
    (ha : 0 < a.size) (hb : 0 < b.size) (_hcross : cross a b = true)
    (hdiff : a.size ≠ b.size ∨ (a.g ≠ b.g ∧ 0 < maxSize2)) :
    (biggerThan a b maxSize2 = true ∧ biggerThan b a maxSize2 = false) ∨
    (biggerThan a b maxSize2 = false ∧ biggerThan b a maxSize2 = true) := by
  have hx := biggerThan_iff maxSize2 a b ha.le hb.le
  have hy := biggerThan_iff maxSize2 b a hb.le ha.le
  rw [abs_sub_comm b.size a.size] at hy
  have e := abs_cases (a.size - b.size)
  simp only [Bool.eq_false_iff, ne_eq, hx, hy]
  by_cases hgap : |a.size - b.size| ≥ maxSize2
  · have hnl : ¬ |a.size - b.size| < maxSize2 := not_lt.mpr hgap
    have hs : a.size ≠ b.size := by
      rcases hdiff with h | ⟨_, h⟩
      · exact h
      · omega
    simp only [hgap, hnl, true_and, false_and, or_false]
    omega
  · have hlt : |a.size - b.size| < maxSize2 := not_le.mp hgap
    simp only [hgap, hlt, true_and, false_and, false_or]
    rcases lt_trichotomy a.g b.g with hg | hg | hg
    · right
      exact ⟨fun h => h.elim (fun h1 => absurd h1 (not_lt.mpr hg.le))
        (fun h2 => absurd h2.1 hg.ne), Or.inl hg⟩
    · have hs : a.size ≠ b.size := by
        rcases hdiff with h | ⟨h, _⟩
        · exact h
        · exact absurd hg h
      simp only [hg, lt_self_iff_false, true_and, false_or]
      omega
    · left
      exact ⟨Or.inl hg, fun h => h.elim (fun h1 => absurd h1 (not_lt.mpr hg.le))
        (fun h2 => absurd h2.1 hg.ne)⟩

/-- The amended C8 on Scenario A: "A" (area 100) and "B" (area 95) cross and
differ in size; "B" is the single winner. -/
theorem biggerThan_single_winner_witness :
    (0 < scenA_A.size ∧ 0 < scenA_B.size ∧ cross scenA_A scenA_B = true ∧
      scenA_A.size ≠ scenA_B.size) ∧
    ((biggerThan scenA_A scenA_B 50 = true ∧ biggerThan scenA_B scenA_A 50 = false) ∨
     (biggerThan scenA_A scenA_B 50 = false ∧ biggerThan scenA_B scenA_A 50 = true)) :=
  ⟨⟨by decide, by decide, by decide, by decide⟩,
   biggerThan_single_winner 50 scenA_A scenA_B (by decide) (by decide) (by decide)
     (Or.inl (by decide))⟩

/-! ## The geometric predicates -/

/-- C9. For non-negative widths and heights `l.cross(f)` is true exactly when the
half-open rectangles `[x, x+Width) x [y, y+Height)` share a point; rectangles
that only touch along an edge, and rectangles of zero width or height, do not
cross. -/
theorem cross_is_rect_intersection (l f : fontSymbolLookup)
    (hlw : 0 ≤ l.fontSymbol.Width) (hlh : 0 ≤ l.fontSymbol.Height)
    (hfw : 0 ≤ f.fontSymbol.Width) (hfh : 0 ≤ f.fontSymbol.Height) :
    (cross l f = true ↔
      max l.x f.x < min (l.x + l.fontSymbol.Width) (f.x + f.fontSymbol.Width) ∧
      max l.y f.y < min (l.y + l.fontSymbol.Height) (f.y + f.fontSymbol.Height)) ∧
    ((l.x + l.fontSymbol.Width = f.x ∨ f.x + f.fontSymbol.Width = l.x ∨
      l.y + l.fontSymbol.Height = f.y ∨ f.y + f.fontSymbol.Height = l.y) →
      cross l f = false) ∧
    ((l.fontSymbol.Width = 0 ∨ l.fontSymbol.Height = 0 ∨
      f.fontSymbol.Width = 0 ∨ f.fontSymbol.Height = 0) → cross l f = false) := by
  have h := cross_iff l f hlw hlh hfw hfh
  refine ⟨h, ?_, ?_⟩
  · intro ht
    rw [Bool.eq_false_iff, ne_eq, h, lt_min_iff, lt_min_iff, max_lt_iff, max_lt_iff]
    omega
  · intro hz
    rw [Bool.eq_false_iff, ne_eq, h, lt_min_iff, lt_min_iff, max_lt_iff, max_lt_iff]
    omega

/-- C9 on two concrete pairs: the matches of Scenario A overlap in
`[12,20) x [11,16)` and cross; two 10 by 10 glyphs at (0,0) and (10,0) share
only the edge `x = 10` and do not cross. -/
theorem cross_is_rect_intersection_witness :
    (0 ≤ scenA_A.fontSymbol.Width ∧ 0 ≤ scenA_A.fontSymbol.Height ∧
      0 ≤ scenA_B.fontSymbol.Width ∧ 0 ≤ scenA_B.fontSymbol.Height) ∧
    cross scenA_A scenA_B = true ∧ cross touch_l touch_r = false :=
  ⟨⟨by decide, by decide, by decide, by decide⟩,
   (cross_is_rect_intersection scenA_A scenA_B (by decide) (by decide) (by decide)
     (by decide)).1.mpr (by decide),
   (cross_is_rect_intersection touch_l touch_r (by decide) (by decide) (by decide)
     (by decide)).2.1 (Or.inl (by decide))⟩

/-- C10, refuted as stated. The spans [0,10] and [5,15] overlap without either
lying within the other, yet `yCross` is true: the top of the second span lies in
the first. -/
theorem yCross_true_without_containment :
    (0 ≤ part_l.fontSymbol.Height ∧ 0 ≤ part_f.fontSymbol.Height) ∧
    yCross part_l part_f = true ∧
    ¬ ((part_l.y ≤ part_f.y ∧
          part_f.y + part_f.fontSymbol.Height ≤ part_l.y + part_l.fontSymbol.Height) ∨
       (part_f.y ≤ part_l.y ∧
          part_l.y + part_l.fontSymbol.Height ≤ part_f.y + part_f.fontSymbol.Height)) := by
  decide

/-- C10, amended. For non-negative heights, and unless the span of `f` strictly
contains the span of `l`, `l.yCross(f)` is true exactly when the closed vertical
spans `[l.y, l.y+l.Height]` and `[f.y, f.y+f.Height]` share a point. -/
theorem yCross_iff_spans_meet (l f : fontSymbolLookup)
    (hl : 0 ≤ l.fontSymbol.Height) (hf : 0 ≤ f.fontSymbol.Height)
    (hns : ¬ (f.y < l.y ∧ l.y + l.fontSymbol.Height < f.y + f.fontSymbol.Height)) :
    yCross l f = true ↔
      max l.y f.y ≤ min (l.y + l.fontSymbol.Height) (f.y + f.fontSymbol.Height) := by
  rw [yCross_iff, le_min_iff, max_le_iff, max_le_iff]
  omega

/-- The amended C10 on the spans [0,10] and [5,15], which share [5,10]. -/
theorem yCross_iff_spans_meet_witness :
    (0 ≤ part_l.fontSymbol.Height ∧ 0 ≤ part_f.fontSymbol.Height ∧
      ¬ (part_f.y < part_l.y ∧
        part_l.y + part_l.fontSymbol.Height < part_f.y + part_f.fontSymbol.Height)) ∧
    yCross part_l part_f = true :=
  ⟨⟨by decide, by decide, by decide⟩,
   (yCross_iff_spans_meet part_l part_f (by decide) (by decide) (by decide)).mpr (by decide)⟩

/-- C11, the code at the failing input. A 4 by 4 glyph at (103,12) lies inside
the 10 by 30 glyph at (100,0): the two cross, `tall.yCross(inner)` is true, but
`inner.yCross(tall)` is false, because neither end of the tall span [0,30] lies
in the small span [12,16]. -/
theorem cross_without_yCross :
    (0 < inner.fontSymbol.Width ∧ 0 < inner.fontSymbol.Height ∧
      0 < tall.fontSymbol.Width ∧ 0 < tall.fontSymbol.Height) ∧
    cross inner tall = true ∧ yCross inner tall = false ∧ yCross tall inner = true := by
  decide

/-- Matches of equal non-negative height pass the row-overlap test in both
directions or in neither. -/
theorem yCross_comm_of_equal_height (l f : fontSymbolLookup)
    (hl : 0 ≤ l.fontSymbol.Height) (he : l.fontSymbol.Height = f.fontSymbol.Height) :
    yCross l f = yCross f l := by
  rw [Bool.eq_iff_iff, yCross_iff, yCross_iff]
  omega

/-- C15, the code at the failing input. With the spans [0,30] (tall) and [10,20]
(short), both of non-negative height, `tall.yCross(short)` is true and
`short.yCross(tall)` is false: the answer depends on the receiver. -/
theorem yCross_depends_on_receiver :
    (0 ≤ tall.fontSymbol.Height ∧ 0 ≤ short.fontSymbol.Height) ∧
    yCross tall short = true ∧ yCross short tall = false ∧
    yCross tall short ≠ yCross short tall := by
  decide

/-- C19. For non-negative widths and heights, two matches that cross pass the
row-overlap test in at least one direction. -/
theorem yCross_of_cross (l f : fontSymbolLookup)
    (hlw : 0 ≤ l.fontSymbol.Width) (hlh : 0 ≤ l.fontSymbol.Height)
    (hfw : 0 ≤ f.fontSymbol.Width) (hfh : 0 ≤ f.fontSymbol.Height)
    (h : cross l f = true) :
    yCross l f = true ∨ yCross f l = true := by
  rw [cross_iff l f hlw hlh hfw hfh, lt_min_iff, lt_min_iff, max_lt_iff, max_lt_iff] at h
  rw [yCross_iff, yCross_iff]
  omega

/-- C19 on the small glyph inside the tall one: they cross, and the test passes
with the tall glyph as receiver. -/
theorem yCross_of_cross_witness :
    (0 ≤ inner.fontSymbol.Width ∧ 0 ≤ inner.fontSymbol.Height ∧
      0 ≤ tall.fontSymbol.Width ∧ 0 ≤ tall.fontSymbol.Height ∧ cross inner tall = true) ∧
    (yCross inner tall = true ∨ yCross tall inner = true) :=
  ⟨by decide,
   yCross_of_cross inner tall (by decide) (by decide) (by decide) (by decide) (by decide)⟩

/-- C20. The full-overlap test is symmetric for all positions and dimensions,
negative ones included. -/
theorem cross_symm (l f : fontSymbolLookup) : cross l f = cross f l := by
  have h : ∀ r s : Rectangle, r.Intersect s ≠ ZR ↔ s.Intersect r ≠ ZR := by
    intro r s
    rw [Intersect_ne_ZR_iff, Intersect_ne_ZR_iff, max_comm r.Min.X, min_comm r.Max.X,
      max_comm r.Min.Y, min_comm r.Max.Y]
  unfold cross
  exact decide_eq_decide.mpr (h _ _)

/-! ## Asymmetry of the two comparators -/

/-- C12. A match is never bigger than itself, whatever the threshold. -/
theorem biggerThan_irrefl (a : fontSymbolLookup) (maxSize2 : Int) :
    biggerThan a a maxSize2 = false := by
  unfold biggerThan
  split
  · simp
  · simp

/-- C18. For every threshold and every two matches, of any sizes,
`a.biggerThan(b, maxSize2)` and `b.biggerThan(a, maxSize2)` are not both true. -/
theorem biggerThan_asymm (maxSize2 : Int) (a b : fontSymbolLookup) :
    ¬ (biggerThan a b maxSize2 = true ∧ biggerThan b a maxSize2 = true) := by
  have hc : abs (abs b.size - abs a.size) = abs (abs a.size - abs b.size) := by
    rw [abs_eq_abs (abs b.size - abs a.size), abs_eq_abs (abs a.size - abs b.size),
      abs_sub_comm]
  unfold biggerThan
  rw [hc]
  rintro ⟨h1, h2⟩
  by_cases hgap : abs (abs a.size - abs b.size) ≥ maxSize2
  · rw [if_pos hgap, decide_eq_true_eq] at h1 h2
    omega
  · rw [if_neg hgap] at h1 h2
    by_cases hg : a.g - b.g = 0
    · have hg2 : b.g - a.g = 0 := by linarith
      simp only [hg, hg2, ne_eq, not_true_eq_false, if_false, decide_eq_true_eq] at h1 h2
      omega
    · have hg2 : b.g - a.g ≠ 0 := fun h => hg (by linarith)
      simp only [ne_eq, hg, hg2, not_false_eq_true, if_true, decide_eq_true_eq] at h1 h2
      linarith

/-- C17. For non-negative heights `a.comesAfter(b)` and `b.comesAfter(a)` are not
both true, also when `yCross` answers differently in the two directions; in
particular `a.comesAfter(a)` is false. -/
theorem comesAfter_asymm (a b : fontSymbolLookup)
    (ha : 0 ≤ a.fontSymbol.Height) (_hb : 0 ≤ b.fontSymbol.Height) :
    ¬ (comesAfter a b = true ∧ comesAfter b a = true) ∧ comesAfter a a = false := by
  constructor
  · rw [comesAfter_iff, comesAfter_iff]
    by_cases hAB : yCross a b = true <;> by_cases hBA : yCross b a = true <;>
      simp only [hAB, hBA, Bool.false_eq_true, not_true_eq_false, not_false_eq_true,
        true_and, false_and, or_false, false_or]
    · omega
    · rw [yCross_iff] at hAB hBA
      omega
    · rw [yCross_iff] at hAB hBA
      omega
    · omega
  · rw [Bool.eq_false_iff, ne_eq, comesAfter_iff]
    omega

/-- C17 on the tall and the short glyph, where `yCross` answers differently in
the two directions: neither comparison is true, so not both are. -/
theorem comesAfter_asymm_witness :
    (0 ≤ tall.fontSymbol.Height ∧ 0 ≤ short.fontSymbol.Height ∧
      yCross tall short ≠ yCross short tall) ∧
    ¬ (comesAfter tall short = true ∧ comesAfter short tall = true) ∧
    comesAfter tall tall = false :=
  ⟨by decide, comesAfter_asymm tall short (by decide) (by decide)⟩

/-! ## The match search driver -/

/-- The wrapping loop appends the wrapped hits, in order, to what was found. -/
theorem findAll_wrap_eq (fs : fontSymbol) (pp : List GPoint) (found : List fontSymbolLookup) :
    findAll.wrap fs pp found =
      found ++ pp.map (fun p => newFontSymbolLookup fs p.X p.Y p.G) := by
  unfold findAll.wrap
  induction pp generalizing found with
  | nil => simp
  | cons p rest ih => simp [List.foldl_cons, ih]

/-- When the primitive succeeds on every symbol, the symbol loop appends the
wrapped hits of each symbol in turn. -/
theorem findAll_loop_ok {ε : Type}
    (lookupAll : ImageBinary → ImageBinary → ℚ → List GPoint × Option ε)
    (o : OCR) (bi : ImageBinary) (symbols : List fontSymbol) (found : List fontSymbolLookup)
    (hok : ∀ fs ∈ symbols, (lookupAll bi fs.image o.threshold).2 = none) :
    findAll.loop lookupAll o bi symbols found =
      (found ++ symbols.flatMap (fun fs =>
        (lookupAll bi fs.image o.threshold).1.map
          (fun p => newFontSymbolLookup fs p.X p.Y p.G)), none) := by
  induction symbols generalizing found with
  | nil => simp [findAll.loop]
  | cons fs rest ih =>
    have h1 := hok fs (List.mem_cons_self _ _)
    have h2 : ∀ s ∈ rest, (lookupAll bi s.image o.threshold).2 = none :=
      fun s hs => hok s (List.mem_cons_of_mem _ hs)
    unfold findAll.loop
    rcases hr : lookupAll bi fs.image o.threshold with ⟨pp, e⟩
    rw [hr] at h1
    simp only at h1
    subst h1
    simp only [ih _ h2, findAll_wrap_eq, List.flatMap_cons, hr, List.append_assoc]

/-- The symbol loop stops at the first symbol on which the primitive fails and
returns that error with no matches. -/
theorem findAll_loop_err {ε : Type}
    (lookupAll : ImageBinary → ImageBinary → ℚ → List GPoint × Option ε)
    (o : OCR) (bi : ImageBinary) (pre : List fontSymbol) (fs : fontSymbol)
    (post : List fontSymbol) (found : List fontSymbolLookup) (e : ε)
    (hpre : ∀ s ∈ pre, (lookupAll bi s.image o.threshold).2 = none)
    (hfs : (lookupAll bi fs.image o.threshold).2 = some e) :
    findAll.loop lookupAll o bi (pre ++ fs :: post) found = ([], some e) := by
  induction pre generalizing found with
  | nil =>
    rcases hr : lookupAll bi fs.image o.threshold with ⟨pp, e2⟩
    rw [hr] at hfs
    simp only at hfs
    subst hfs
    simp [findAll.loop, hr]
  | cons s rest ih =>
    have h1 := hpre s (List.mem_cons_self _ _)
    have h2 : ∀ t ∈ rest, (lookupAll bi t.image o.threshold).2 = none :=
      fun t ht => hpre t (List.mem_cons_of_mem _ ht)
    rcases hr : lookupAll bi s.image o.threshold with ⟨pp, e2⟩
    rw [hr] at h1
    simp only at h1
    subst h1
    simp only [List.cons_append, findAll.loop, hr]
    exact ih _ h2

/-- The symbol loop ends in an error exactly when the primitive fails on one of
the symbols. -/
theorem findAll_loop_err_iff {ε : Type}
    (lookupAll : ImageBinary → ImageBinary → ℚ → List GPoint × Option ε)
    (o : OCR) (bi : ImageBinary) (symbols : List fontSymbol) (found : List fontSymbolLookup) :
    (findAll.loop lookupAll o bi symbols found).2 ≠ none ↔
      ∃ fs ∈ symbols, (lookupAll bi fs.image o.threshold).2 ≠ none := by
  induction symbols generalizing found with
  | nil => simp [findAll.loop]
  | cons s rest ih =>
    rcases hr : lookupAll bi s.image o.threshold with ⟨pp, e⟩
    cases e with
    | none => simp [findAll.loop, hr, ih]
    | some err => simp [findAll.loop, hr]

/-- C13. When the correlation primitive succeeds on every symbol, `findAll`
returns, with no error, the hits of each symbol in the order of `symbols` and in
the order reported, each hit `(X, Y, G)` wrapped with that symbol, `x = X`,
`y = Y`, `g = G` and `size` the symbol's `image.Size`; the output length is the
total number of hits. -/
theorem findAll_collects {ε : Type}
    (lookupAll : ImageBinary → ImageBinary → ℚ → List GPoint × Option ε)
    (o : OCR) (symbols : List fontSymbol) (bi : ImageBinary) (x1 y1 x2 y2 : Int)
    (hok : ∀ fs ∈ symbols, (lookupAll bi fs.image o.threshold).2 = none) :
    findAll lookupAll o symbols bi x1 y1 x2 y2 =
      (symbols.flatMap (fun fs =>
        (lookupAll bi fs.image o.threshold).1.map
          (fun p => ({ fontSymbol := fs, x := p.X, y := p.Y, g := p.G,
                       size := fs.image.Size } : fontSymbolLookup))), none) ∧
    (findAll lookupAll o symbols bi x1 y1 x2 y2).1.length =
      (symbols.map (fun fs => (lookupAll bi fs.image o.threshold).1.length)).sum := by
  have h := findAll_loop_ok lookupAll o bi symbols [] hok
  simp only [List.nil_append, newFontSymbolLookup] at h
  unfold findAll
  rw [h]
  refine ⟨rfl, ?_⟩
  clear h hok
  induction symbols with
  | nil => simp
  | cons fs rest ih =>
    simp only [List.flatMap_cons, List.length_append, List.length_map, List.map_cons,
      List.sum_cons] at ih ⊢
    rw [ih]

/-- C13 on two symbols: "A" is found twice, "B" once; the three matches come out
in that order. -/
theorem findAll_collects_witness :
    (∀ fs ∈ [glyph "A" 10 10, glyph "B" 5 10], (hitsOK page fs.image (7 / 10)).2 = none) ∧
    findAll hitsOK ⟨7 / 10⟩ [glyph "A" 10 10, glyph "B" 5 10] page 0 0 100 40 =
      ([⟨glyph "A" 10 10, 1, 2, 9 / 10, 100⟩, ⟨glyph "A" 10 10, 30, 2, 8 / 10, 100⟩,
        ⟨glyph "B" 5 10, 15, 2, 19 / 20, 50⟩], none) ∧
    (findAll hitsOK ⟨7 / 10⟩ [glyph "A" 10 10, glyph "B" 5 10] page 0 0 100 40).1.length = 3 :=
  ⟨by decide,
   (findAll_collects hitsOK ⟨7 / 10⟩ [glyph "A" 10 10, glyph "B" 5 10] page 0 0 100 40
     (by decide)).1,
   (findAll_collects hitsOK ⟨7 / 10⟩ [glyph "A" 10 10, glyph "B" 5 10] page 0 0 100 40
     (by decide)).2⟩

/-- C14. `findAll` returns an error exactly when the correlation primitive fails
on at least one symbol; the error is that of the first failing symbol in
iteration order, unchanged, and no match comes with it. -/
theorem findAll_propagates {ε : Type}
    (lookupAll : ImageBinary → ImageBinary → ℚ → List GPoint × Option ε)
    (o : OCR) (symbols : List fontSymbol) (bi : ImageBinary) (x1 y1 x2 y2 : Int) :
    ((findAll lookupAll o symbols bi x1 y1 x2 y2).2 ≠ none ↔
      ∃ fs ∈ symbols, (lookupAll bi fs.image o.threshold).2 ≠ none) ∧
    (∀ (pre : List fontSymbol) (fs : fontSymbol) (post : List fontSymbol) (e : ε),
      symbols = pre ++ fs :: post →
      (∀ s ∈ pre, (lookupAll bi s.image o.threshold).2 = none) →
      (lookupAll bi fs.image o.threshold).2 = some e →
      findAll lookupAll o symbols bi x1 y1 x2 y2 = ([], some e)) := by
  refine ⟨findAll_loop_err_iff lookupAll o bi symbols [], ?_⟩
  intro pre fs post e hs hpre hfs
  subst hs
  exact findAll_loop_err lookupAll o bi pre fs post [] e hpre hfs

/-- C14 on two symbols: the primitive finds "A" twice and fails on "B"; the
error of "B" is returned and the two matches of "A" are dropped. -/
theorem findAll_propagates_witness :
    ((∀ s ∈ [glyph "A" 10 10], (hitsFail page s.image (7 / 10)).2 = none) ∧
      (hitsFail page (glyph "B" 5 10).image (7 / 10)).2 = some "malformed region") ∧
    findAll hitsFail ⟨7 / 10⟩ [glyph "A" 10 10, glyph "B" 5 10] page 0 0 100 40 =
      ([], some "malformed region") :=
  ⟨⟨by decide, by decide⟩,
   (findAll_propagates hitsFail ⟨7 / 10⟩ [glyph "A" 10 10, glyph "B" 5 10] page 0 0 100 40).2
     [glyph "A" 10 10] (glyph "B" 5 10) [] "malformed region" rfl (by decide) (by decide)⟩

/-! ## The font loader -/

/-- The loop of `loadFont` never changes the length of `fonts`: an entry is
either skipped or written at an index. -/
theorem loadFont_loop_length {ε : Type} (loadSymbol : String → String → Except ε fontSymbol)
    (path : String) (files : List (Nat × FileInfo)) (fonts : List (Option fontSymbol))
    (hok : (loadFont.loop loadSymbol path files fonts).2 = none) :
    (loadFont.loop loadSymbol path files fonts).1.length = fonts.length := by
  induction files generalizing fonts with
  | nil => simp [loadFont.loop]
  | cons head rest ih =>
    obtain ⟨i, f⟩ := head
    unfold loadFont.loop at hok ⊢
    split
    · rename_i hskip
      rw [if_pos hskip] at hok
      exact ih fonts hok
    · rename_i hskip
      rw [if_neg hskip] at hok
      cases hl : loadSymbol path f.Name with
      | error err => rw [hl] at hok; simp at hok
      | ok fs =>
        rw [hl] at hok
        simp only at hok ⊢
        rw [ih _ hok, List.length_set]

/-- Whenever `loadFont` succeeds, the slice it returns has one element per
directory entry, skipped entries included. -/
theorem loadFont_length {ε : Type} (ReadDir : String → Except ε (List FileInfo))
    (loadSymbol : String → String → Except ε fontSymbol) (path : String)
    (files : List FileInfo) (hdir : ReadDir path = .ok files)
    (hok : (loadFont ReadDir loadSymbol path).2 = none) :
    (loadFont ReadDir loadSymbol path).1.length = files.length := by
  unfold loadFont at hok ⊢
  rw [hdir] at hok ⊢
  simp only at hok ⊢
  rw [loadFont_loop_length loadSymbol path _ _ hok, List.length_replicate]

/-- Writing at the index that follows a prefix replaces the element found there. -/
theorem set_at_length {α : Type} (pre : List α) (x a : α) (t : List α) :
    (pre ++ x :: t).set pre.length a = pre ++ a :: t := by
  induction pre with
  | nil => rfl
  | cons p rest ih => simp [ih]

/-- The loop of `loadFont` on a tail of the listing none of whose entries is
skipped: the `nil` placeholders are replaced, in order, by the loaded symbols. -/
theorem loadFont_loop_all_kept {ε : Type} (loadSymbol : String → String → Except ε fontSymbol)
    (path : String) (load : FileInfo → fontSymbol) (rest : List FileInfo)
    (pre : List (Option fontSymbol))
    (hkeep : ∀ f ∈ rest, (f.IsDir || HasPrefix f.Name ".") = false)
    (hload : ∀ f ∈ rest, loadSymbol path f.Name = .ok (load f)) :
    loadFont.loop loadSymbol path (rest.enumFrom pre.length)
        (pre ++ List.replicate rest.length none) =
      (pre ++ rest.map (fun f => some (load f)), none) := by
  induction rest generalizing pre with
  | nil => simp [loadFont.loop]
  | cons f rest ih =>
    have hk := hkeep f (List.mem_cons_self _ _)
    have hl := hload f (List.mem_cons_self _ _)
    have hk2 : ∀ g ∈ rest, (g.IsDir || HasPrefix g.Name ".") = false :=
      fun g hg => hkeep g (List.mem_cons_of_mem _ hg)
    have hl2 : ∀ g ∈ rest, loadSymbol path g.Name = .ok (load g) :=
      fun g hg => hload g (List.mem_cons_of_mem _ hg)
    have step := ih (pre ++ [some (load f)]) hk2 hl2
    simp only [List.length_append, List.length_singleton, List.append_assoc,
      List.singleton_append] at step
    simp only [List.enumFrom_cons, loadFont.loop, hk, Bool.false_eq_true, if_false, hl,
      List.length_cons, List.replicate_succ, set_at_length, List.map_cons]
    exact step

/-- On a listing that holds glyph files only (no directory, no dot file), all
of which load, `loadFont` returns the loaded symbols in listing order, one per
entry and none missing. -/
theorem loadFont_all_glyph_files {ε : Type} (ReadDir : String → Except ε (List FileInfo))
    (loadSymbol : String → String → Except ε fontSymbol) (path : String)
    (files : List FileInfo) (load : FileInfo → fontSymbol)
    (hdir : ReadDir path = .ok files)
    (hkeep : ∀ f ∈ files, (f.IsDir || HasPrefix f.Name ".") = false)
    (hload : ∀ f ∈ files, loadSymbol path f.Name = .ok (load f)) :
    loadFont ReadDir loadSymbol path = (files.map (fun f => some (load f)), none) := by
  unfold loadFont
  rw [hdir]
  have h := loadFont_loop_all_kept loadSymbol path load files [] hkeep hload
  simpa [List.enum] using h

/-- C16, the code at the failing input. A directory listing of one dot file and
two glyph files, every glyph file loading successfully: `loadFont` returns three
elements, the first of which is `nil`, where the claim has the two symbols. -/
theorem loadFont_keeps_nil_for_skipped_entry :
    fontDir "testdata/font_1" = .ok [⟨".DS_Store", false⟩, ⟨"0.png", false⟩, ⟨"1.png", false⟩] ∧
    loadFont fontDir loadOK "testdata/font_1" =
      ([none, some (glyph "0.png" 10 10), some (glyph "1.png" 10 10)], none) ∧
    (loadFont fontDir loadOK "testdata/font_1").1.length = 3 ∧
    none ∈ (loadFont fontDir loadOK "testdata/font_1").1 :=
  ⟨rfl, rfl, rfl, List.mem_cons_self _ _⟩

end Lookup
